import Mathlib

/-!
Verification development for the cursor-anxious repository.

The embedding models `src/src/lib.rs` (the authoritative core:
`apply_anxious_scroll` and `process_events`) and the duplicated
`apply_anxious_scroll` in `src/src/main.rs`.

Modelling conventions:
* `SystemTime` and `Duration` are nanosecond counts (`ℕ`);
  `SystemTime::duration_since` is `durationSince`, `Duration::as_millis`
  is division by 10^6.
* `f32` values are modelled by `F32`: finite floats are carried as exact
  real numbers (rounding is elided), and the special values NaN and ±∞
  propagate through the arithmetic following IEEE-754 as implemented by
  Rust `f32` operations. Division only ever sees the nonnegative
  millisecond count as divisor, so a zero divisor is treated as +0.
* Rust's saturating float-to-integer `as i32` cast is `F32.as_i32`.
-/

open scoped Classical

noncomputable section

namespace CursorAnxious

/-- Model of an `f32` value: NaN, a signed infinity (`true` = +∞), or a
finite value carried as an exact real number. -/
inductive F32 where
  | nan : F32
  | inf : Bool → F32
  | fin : ℝ → F32

namespace F32

/-- Rust `f32::abs`. -/
def abs : F32 → F32
  | nan => nan
  | inf _ => inf true
  | fin x => fin |x|

/-- IEEE-754 `f32` negation-free addition (only `1.0 + c * e` in the source). -/
def add : F32 → F32 → F32
  | nan, _ => nan
  | _, nan => nan
  | inf s, inf t => if s = t then inf s else nan
  | inf s, fin _ => inf s
  | fin _, inf s => inf s
  | fin x, fin y => fin (x + y)

/-- IEEE-754 `f32` multiplication on the value model. -/
def mul : F32 → F32 → F32
  | nan, _ => nan
  | _, nan => nan
  | inf s, inf t => inf (s = t)
  | inf s, fin y => if y = 0 then nan else if y < 0 then inf (!s) else inf s
  | fin x, inf s => if x = 0 then nan else if x < 0 then inf (!s) else inf s
  | fin x, fin y => fin (x * y)

/-- IEEE-754 `f32` division on the value model. The program only divides
by the nonnegative millisecond count, so a zero divisor is treated as +0:
`x / 0` is NaN for `x = 0` and a sign-matching infinity otherwise. -/
def div : F32 → F32 → F32
  | nan, _ => nan
  | _, nan => nan
  | inf _, inf _ => nan
  | inf s, fin y => if y < 0 then inf (!s) else inf s
  | fin _, inf _ => fin 0
  | fin x, fin y =>
    if y = 0 then (if x = 0 then nan else if x < 0 then inf false else inf true)
    else fin (x / y)

/-- Rust `f32::exp`: `exp(-∞) = 0`, `exp(+∞) = +∞`, `exp(NaN) = NaN`. -/
def exp : F32 → F32
  | nan => nan
  | inf true => inf true
  | inf false => fin 0
  | fin x => fin (Real.exp x)

end F32

/-- Truncation toward zero of a real number, as performed by a
float-to-integer cast before saturation. -/
def truncz (x : ℝ) : ℤ :=
  if 0 ≤ x then ⌊x⌋ else ⌈x⌉

/-- Saturating conversion of a finite float value to `i32`: truncate
toward zero, then clamp into `[-2^31, 2^31 - 1]`. -/
def realToI32 (x : ℝ) : ℤ :=
  max (-(2 ^ 31)) (min (2 ^ 31 - 1) (truncz x))

/-- Rust `expr as i32` on an `f32`: NaN maps to 0, +∞ to `i32::MAX`,
-∞ to `i32::MIN`, finite values truncate toward zero and saturate. -/
def F32.as_i32 : F32 → ℤ
  | F32.nan => 0
  | F32.inf true => 2 ^ 31 - 1
  | F32.inf false => -(2 ^ 31)
  | F32.fin x => realToI32 x

/-- Parameters for the anxious scroll algorithm (lib.rs, `AnxiousParams`).
The `f32` fields are carried as reals. -/
structure AnxiousParams where
  base_sens : ℝ
  max_sens : ℝ
  ramp_up_rate : ℝ

/-- The `Default` instance for `AnxiousParams` in lib.rs
(`base_sens = 1.0`, `max_sens = 15.0`, `ramp_up_rate = 0.3`). -/
def defaultParams : AnxiousParams := ⟨1, 15, 0.3⟩

/-- The parameter invariant stated in the documentation:
`max_sens > base_sens > 0` and `ramp_up_rate > 0`. -/
def validParams (p : AnxiousParams) : Prop :=
  0 < p.base_sens ∧ p.base_sens < p.max_sens ∧ 0 < p.ramp_up_rate

/-- State for tracking scroll velocity over time (lib.rs, `AnxiousState`).
`prev_time` is a `SystemTime`, modelled in nanoseconds since the epoch. -/
structure AnxiousState where
  prev_time : ℕ

/-- Rust `SystemTime::duration_since`: `Ok(self - earlier)` when
`self ≥ earlier`, and `Err(SystemTimeError)` otherwise. -/
def durationSince (t earlier : ℕ) : Option ℕ :=
  if earlier ≤ t then some (t - earlier) else none

/-- Elapsed time computed by lib.rs lines 62-69 (with the 1000 ms
fallback on the `Err` branch) followed by `Duration::as_millis`. -/
def elapsedMillis (timestamp : ℕ) (s : AnxiousState) : ℕ :=
  (match durationSince timestamp s.prev_time with
   | some d => d
   | none => 1000000000) / 1000000

/-- lib.rs line 72: `let vel = value.abs() / elapsed_time.as_millis() as f32`. -/
def scrollVel (value : F32) (ms : ℕ) : F32 :=
  value.abs.div (F32.fin (ms : ℝ))

/-- lib.rs lines 73-76: `c = max_sens / base_sens - 1.0` and
`sens = max_sens / (1.0 + c * (-1.0 * vel * ramp_up_rate).exp())`. -/
def scrollSens (p : AnxiousParams) (vel : F32) : F32 :=
  (F32.fin p.max_sens).div
    ((F32.fin 1).add ((F32.fin (p.max_sens / p.base_sens - 1)).mul
      (F32.exp (((F32.fin (-1)).mul vel).mul (F32.fin p.ramp_up_rate)))))

/-- The product `value * sens` of lib.rs line 77, as an `f32` value. -/
def scrollProduct (value : F32) (ms : ℕ) (p : AnxiousParams) : F32 :=
  value.mul (scrollSens p (scrollVel value ms))

/-- lib.rs line 77: `return (value * sens) as i32`. -/
def scrollResult (value : F32) (ms : ℕ) (p : AnxiousParams) : ℤ :=
  (scrollProduct value ms p).as_i32

/-- lib.rs `apply_anxious_scroll` (lines 56-78): computes the elapsed
time with the 1000 ms fallback, unconditionally writes
`prev_time = timestamp`, and returns the rescaled delta. The mutated
state is returned as the second component. -/
def apply_anxious_scroll (value : F32) (timestamp : ℕ) (p : AnxiousParams)
    (s : AnxiousState) : ℤ × AnxiousState :=
  (scrollResult value (elapsedMillis timestamp s) p, ⟨timestamp⟩)

/-- main.rs `apply_anxious_scroll` (lines 133-142): identical arithmetic,
but line 134 calls `.unwrap()` on `duration_since`, which panics when the
timestamp is earlier than `prev_time`. The panic is modelled as `none`. -/
def mainApplyAnxiousScroll (value : F32) (timestamp : ℕ) (p : AnxiousParams)
    (s : AnxiousState) : Option (ℤ × AnxiousState) :=
  match durationSince timestamp s.prev_time with
  | none => none
  | some d => some (scrollResult value (d / 1000000) p, ⟨timestamp⟩)

/-- Model of `evdev::InputEvent`: type tag, code, signed 32-bit value,
and a timestamp (`SystemTime`, in nanoseconds). -/
structure InputEvent where
  event_type : ℕ
  code : ℕ
  value : ℤ
  timestamp : ℕ
deriving DecidableEq

/-- `evdev::EventType::RELATIVE` (EV_REL = 0x02). -/
def RELATIVE : ℕ := 2

/-- `evdev::RelativeAxisCode::REL_X.0` (0x00). -/
def REL_X : ℕ := 0

/-- `evdev::RelativeAxisCode::REL_WHEEL.0` (0x08). -/
def REL_WHEEL : ℕ := 8

/-- `evdev::RelativeAxisCode::REL_WHEEL_HI_RES.0` (0x0b). -/
def REL_WHEEL_HI_RES : ℕ := 11

/-- `evdev::InputEvent::new(type, code, value)`: the kernel stamps the
time field on emission, so the constructed event carries a zeroed
timestamp. -/
def InputEvent.new (t c : ℕ) (v : ℤ) : InputEvent := ⟨t, c, v, 0⟩

/-- lib.rs `process_events` (lines 83-118): per event in input order,
rescale high-resolution wheel events (threading the state), drop
low-resolution wheel events, and pass everything else through. The
final state is returned as the second component. -/
def process_events : List InputEvent → AnxiousParams → AnxiousState →
    List InputEvent × AnxiousState
  | [], _, s => ([], s)
  | e :: rest, p, s =>
    if e.event_type = RELATIVE ∧ e.code = REL_WHEEL_HI_RES then
      let m := apply_anxious_scroll (F32.fin (e.value : ℝ)) e.timestamp p s
      let out := process_events rest p m.2
      (InputEvent.new e.event_type e.code m.1 :: out.1, out.2)
    else if e.event_type = RELATIVE ∧ e.code = REL_WHEEL then
      process_events rest p s
    else
      let out := process_events rest p s
      (e :: out.1, out.2)

/-- Closed form of the sensitivity on finite velocities:
`max_sens / (1 + (max_sens / base_sens - 1) * exp(-1 * vel * ramp_up_rate))`. -/
def sensR (p : AnxiousParams) (v : ℝ) : ℝ :=
  p.max_sens / (1 + (p.max_sens / p.base_sens - 1) * Real.exp (-1 * v * p.ramp_up_rate))

/-- Sensitivity reached for a scroll of magnitude `a` after `ms`
milliseconds: `max_sens` on the degenerate zero-millisecond path
(infinite velocity), and `sensR` at velocity `a / ms` otherwise. -/
def sensAt (p : AnxiousParams) (a : ℝ) (ms : ℕ) : ℝ :=
  if ms = 0 then p.max_sens else sensR p (a / ms)

/-! ### Basic reduction lemmas for the `F32` operations -/

lemma F32.abs_fin (x : ℝ) : (F32.fin x).abs = F32.fin |x| := rfl

lemma F32.mul_fin_fin (x y : ℝ) : (F32.fin x).mul (F32.fin y) = F32.fin (x * y) := rfl

lemma F32.add_fin_fin (x y : ℝ) : (F32.fin x).add (F32.fin y) = F32.fin (x + y) := rfl

lemma F32.exp_fin (x : ℝ) : (F32.fin x).exp = F32.fin (Real.exp x) := rfl

lemma F32.div_fin_fin (x y : ℝ) (hy : y ≠ 0) :
    (F32.fin x).div (F32.fin y) = F32.fin (x / y) := by
  simp [F32.div, hy]

lemma F32.mul_nan_right (f : F32) : f.mul F32.nan = F32.nan := by
  cases f <;> rfl

lemma F32.as_i32_fin (x : ℝ) : (F32.fin x).as_i32 = realToI32 x := rfl

/-! ### The saturating cast -/

lemma truncz_nonneg {x : ℝ} (hx : 0 ≤ x) : truncz x = ⌊x⌋ := if_pos hx

lemma truncz_mono {x y : ℝ} (h : x ≤ y) : truncz x ≤ truncz y := by
  unfold truncz
  by_cases hx : 0 ≤ x
  · rw [if_pos hx, if_pos (hx.trans h)]
    exact Int.floor_le_floor h
  · rw [if_neg hx]
    by_cases hy : 0 ≤ y
    · rw [if_pos hy]
      have h1 : ⌈x⌉ ≤ (0 : ℤ) := Int.ceil_le.mpr (by exact_mod_cast le_of_not_le hx)
      have h2 : (0 : ℤ) ≤ ⌊y⌋ := Int.floor_nonneg.mpr hy
      omega
    · rw [if_neg hy]
      exact Int.ceil_le_ceil h

lemma realToI32_mono {x y : ℝ} (h : x ≤ y) : realToI32 x ≤ realToI32 y :=
  max_le_max le_rfl (min_le_min le_rfl (truncz_mono h))

lemma realToI32_lower (x : ℝ) : -(2 ^ 31) ≤ realToI32 x := le_max_left _ _

lemma realToI32_upper (x : ℝ) : realToI32 x ≤ 2 ^ 31 - 1 :=
  max_le (by norm_num) (min_le_left _ _)

lemma realToI32_of_mem {x : ℝ} (h0 : 0 ≤ x) (h1 : x < 2 ^ 31) :
    realToI32 x = ⌊x⌋ := by
  unfold realToI32
  rw [truncz_nonneg h0]
  have hfl : ⌊x⌋ ≤ 2 ^ 31 - 1 := by
    have : ⌊x⌋ < (2 ^ 31 : ℤ) := Int.floor_lt.mpr (by exact_mod_cast h1)
    omega
  have hfg : (0 : ℤ) ≤ ⌊x⌋ := Int.floor_nonneg.mpr h0
  rw [min_eq_right hfl, max_eq_right (by omega)]

lemma realToI32_nonneg {x : ℝ} (h0 : 0 ≤ x) : 0 ≤ realToI32 x := by
  unfold realToI32
  rw [truncz_nonneg h0]
  have hfg : (0 : ℤ) ≤ ⌊x⌋ := Int.floor_nonneg.mpr h0
  rcases le_or_lt ⌊x⌋ (2 ^ 31 - 1) with h | h
  · rw [min_eq_right h]; exact le_max_of_le_right hfg
  · rw [min_eq_left h.le]; norm_num

lemma realToI32_nonpos {x : ℝ} (h0 : x ≤ 0) : realToI32 x ≤ 0 := by
  have h1 : truncz x ≤ 0 := by
    unfold truncz
    by_cases hx : 0 ≤ x
    · rw [if_pos hx]
      have hx0 : x = 0 := le_antisymm h0 hx
      simp [hx0]
    · rw [if_neg hx]
      exact Int.ceil_le.mpr (by exact_mod_cast h0)
  exact max_le (by norm_num) (le_trans (min_le_right _ _) h1)

lemma as_i32_lower (f : F32) : -(2 ^ 31) ≤ f.as_i32 := by
  cases f with
  | nan => norm_num [F32.as_i32]
  | inf b => cases b <;> norm_num [F32.as_i32]
  | fin x => exact realToI32_lower x

lemma as_i32_upper (f : F32) : f.as_i32 ≤ 2 ^ 31 - 1 := by
  cases f with
  | nan => norm_num [F32.as_i32]
  | inf b => cases b <;> norm_num [F32.as_i32]
  | fin x => exact realToI32_upper x

/-! ### Parameter facts and the closed-form sensitivity -/

lemma c_pos {p : AnxiousParams} (hp : validParams p) :
    0 < p.max_sens / p.base_sens - 1 := by
  obtain ⟨hb, hbm, -⟩ := hp
  have h1 : 1 < p.max_sens / p.base_sens := (one_lt_div hb).mpr hbm
  linarith

lemma max_sens_pos {p : AnxiousParams} (hp : validParams p) : 0 < p.max_sens :=
  hp.1.trans hp.2.1

lemma denom_pos {p : AnxiousParams} (hp : validParams p) (e : ℝ) :
    0 < 1 + (p.max_sens / p.base_sens - 1) * Real.exp e := by
  have h1 := c_pos hp
  have h2 := Real.exp_pos e
  nlinarith

lemma sensR_pos {p : AnxiousParams} (hp : validParams p) (v : ℝ) :
    0 < sensR p v :=
  div_pos (max_sens_pos hp) (denom_pos hp _)

lemma sensR_le_max {p : AnxiousParams} (hp : validParams p) (v : ℝ) :
    sensR p v ≤ p.max_sens := by
  unfold sensR
  have h1 := c_pos hp
  have h2 := Real.exp_pos (-1 * v * p.ramp_up_rate)
  have hd : 1 ≤ 1 + (p.max_sens / p.base_sens - 1) * Real.exp (-1 * v * p.ramp_up_rate) := by
    nlinarith
  calc p.max_sens / (1 + (p.max_sens / p.base_sens - 1) *
        Real.exp (-1 * v * p.ramp_up_rate))
      ≤ p.max_sens / 1 := by
        apply div_le_div_of_nonneg_left (max_sens_pos hp).le one_pos hd
    _ = p.max_sens := div_one _

lemma sensR_mono {p : AnxiousParams} (hp : validParams p) {v w : ℝ} (h : v ≤ w) :
    sensR p v ≤ sensR p w := by
  unfold sensR
  have hc := c_pos hp
  have hexp : Real.exp (-1 * w * p.ramp_up_rate) ≤ Real.exp (-1 * v * p.ramp_up_rate) :=
    Real.exp_le_exp.mpr (by nlinarith [hp.2.2])
  have hd2 := denom_pos hp (-1 * w * p.ramp_up_rate)
  apply div_le_div_of_nonneg_left (max_sens_pos hp).le hd2
  nlinarith

lemma sensR_gt_base {p : AnxiousParams} (hp : validParams p) {v : ℝ} (hv : 0 < v) :
    p.base_sens < sensR p v := by
  obtain ⟨hb, hbm, hr⟩ := hp
  have hexp : Real.exp (-1 * v * p.ramp_up_rate) < 1 :=
    Real.exp_lt_one_iff.mpr (by nlinarith)
  have hexp0 := Real.exp_pos (-1 * v * p.ramp_up_rate)
  have hc : 0 < p.max_sens / p.base_sens - 1 := c_pos ⟨hb, hbm, hr⟩
  have hd := denom_pos ⟨hb, hbm, hr⟩ (-1 * v * p.ramp_up_rate)
  rw [sensR, lt_div_iff₀ hd]
  have hkey : p.base_sens * (p.max_sens / p.base_sens - 1) = p.max_sens - p.base_sens := by
    field_simp
  nlinarith

/-! ### Characterization of the embedded transform on each input shape -/

lemma scrollVel_fin_of_ms_ne_zero (v : ℝ) {ms : ℕ} (h : ms ≠ 0) :
    scrollVel (F32.fin v) ms = F32.fin (|v| / ms) := by
  have : ((ms : ℝ)) ≠ 0 := Nat.cast_ne_zero.mpr h
  simp [scrollVel, F32.abs_fin, F32.div_fin_fin _ _ this]

lemma scrollVel_fin_zero_ms {v : ℝ} (hv : v ≠ 0) :
    scrollVel (F32.fin v) 0 = F32.inf true := by
  have h1 : ¬ (|v| = 0) := by simpa using hv
  have h2 : ¬ (|v| < 0) := not_lt.mpr (abs_nonneg v)
  simp [scrollVel, F32.abs_fin, F32.div, h1, h2]

lemma scrollVel_zero_zero : scrollVel (F32.fin 0) 0 = F32.nan := by
  simp [scrollVel, F32.abs_fin, F32.div]

lemma scrollVel_nan (ms : ℕ) : scrollVel F32.nan ms = F32.nan := rfl

lemma scrollVel_inf (b : Bool) (ms : ℕ) : scrollVel (F32.inf b) ms = F32.inf true := by
  have : ¬ ((ms : ℝ) < 0) := not_lt.mpr (Nat.cast_nonneg ms)
  simp [scrollVel, F32.abs, F32.div, this]

lemma scrollSens_fin {p : AnxiousParams} (hp : validParams p) (v : ℝ) :
    scrollSens p (F32.fin v) = F32.fin (sensR p v) := by
  have hd := (denom_pos hp (-1 * v * p.ramp_up_rate)).ne'
  simp only [scrollSens, F32.mul_fin_fin, F32.exp_fin, F32.add_fin_fin]
  rw [F32.div_fin_fin _ _ hd]
  rfl

lemma scrollSens_inf_true {p : AnxiousParams} (hr : 0 < p.ramp_up_rate) :
    scrollSens p (F32.inf true) = F32.fin p.max_sens := by
  have h1 : ¬ ((-1 : ℝ) = 0) := by norm_num
  have h2 : ((-1 : ℝ) < 0) := by norm_num
  have h3 : p.ramp_up_rate ≠ 0 := hr.ne'
  have h4 : ¬ (p.ramp_up_rate < 0) := not_lt.mpr hr.le
  simp [scrollSens, F32.mul, F32.exp, F32.add, F32.div, h1, h2, h3, h4]

lemma scrollSens_nan (p : AnxiousParams) : scrollSens p F32.nan = F32.nan := rfl

lemma scrollResult_fin_of_ms_ne_zero {p : AnxiousParams} (hp : validParams p)
    (v : ℝ) {ms : ℕ} (h : ms ≠ 0) :
    scrollResult (F32.fin v) ms p = realToI32 (v * sensR p (|v| / ms)) := by
  rw [scrollResult, scrollProduct, scrollVel_fin_of_ms_ne_zero v h, scrollSens_fin hp,
    F32.mul_fin_fin, F32.as_i32_fin]

lemma scrollResult_fin_zero_ms {p : AnxiousParams} (hp : validParams p)
    {v : ℝ} (hv : v ≠ 0) :
    scrollResult (F32.fin v) 0 p = realToI32 (v * p.max_sens) := by
  rw [scrollResult, scrollProduct, scrollVel_fin_zero_ms hv, scrollSens_inf_true hp.2.2,
    F32.mul_fin_fin, F32.as_i32_fin]

lemma scrollResult_eq_sensAt {p : AnxiousParams} (hp : validParams p)
    {v : ℝ} (hv : v ≠ 0) (ms : ℕ) :
    scrollResult (F32.fin v) ms p = realToI32 (v * sensAt p |v| ms) := by
  rcases Nat.eq_zero_or_pos ms with h | h
  · subst h
    rw [scrollResult_fin_zero_ms hp hv, sensAt, if_pos rfl]
  · rw [scrollResult_fin_of_ms_ne_zero hp v h.ne', sensAt, if_neg h.ne']

lemma scrollResult_zero_value {p : AnxiousParams} (hp : validParams p) (ms : ℕ) :
    scrollResult (F32.fin 0) ms p = 0 := by
  rcases Nat.eq_zero_or_pos ms with h | h
  · subst h
    rw [scrollResult, scrollProduct, scrollVel_zero_zero, scrollSens_nan,
      F32.mul_nan_right]
    rfl
  · rw [scrollResult_fin_of_ms_ne_zero hp 0 h.ne']
    norm_num [realToI32, truncz]

lemma scrollResult_nan (p : AnxiousParams) (ms : ℕ) :
    scrollResult F32.nan ms p = 0 := rfl

lemma scrollResult_inf {p : AnxiousParams} (hp : validParams p) (b : Bool) (ms : ℕ) :
    scrollResult (F32.inf b) ms p = if b then 2 ^ 31 - 1 else -(2 ^ 31) := by
  have hm : p.max_sens ≠ 0 := (max_sens_pos hp).ne'
  have hm2 : ¬ (p.max_sens < 0) := not_lt.mpr (max_sens_pos hp).le
  rw [scrollResult, scrollProduct, scrollVel_inf, scrollSens_inf_true hp.2.2]
  cases b <;> simp [F32.mul, hm, hm2, F32.as_i32]

/-! ### Facts about `sensAt` and `elapsedMillis` -/

lemma sensAt_pos {p : AnxiousParams} (hp : validParams p) (a : ℝ) (ms : ℕ) :
    0 < sensAt p a ms := by
  unfold sensAt
  split
  · exact max_sens_pos hp
  · exact sensR_pos hp _

lemma sensAt_le_max {p : AnxiousParams} (hp : validParams p) (a : ℝ) (ms : ℕ) :
    sensAt p a ms ≤ p.max_sens := by
  unfold sensAt
  split
  · exact le_rfl
  · exact sensR_le_max hp _

lemma sensAt_gt_base {p : AnxiousParams} (hp : validParams p) {a : ℝ} (ha : 0 < a)
    (ms : ℕ) : p.base_sens < sensAt p a ms := by
  unfold sensAt
  split
  · exact hp.2.1
  · next h =>
    have : (0 : ℝ) < ms := by
      exact_mod_cast Nat.pos_of_ne_zero h
    exact sensR_gt_base hp (div_pos ha this)

lemma sensAt_anti {p : AnxiousParams} (hp : validParams p) {a : ℝ} (ha : 0 ≤ a)
    {ms1 ms2 : ℕ} (h : ms1 ≤ ms2) : sensAt p a ms2 ≤ sensAt p a ms1 := by
  rcases Nat.eq_zero_or_pos ms1 with h1 | h1
  · subst h1
    have e1 : sensAt p a 0 = p.max_sens := if_pos rfl
    rw [e1]
    exact sensAt_le_max hp a ms2
  · have h2 : 0 < ms2 := lt_of_lt_of_le h1 h
    have e1 : sensAt p a ms1 = sensR p (a / ms1) := if_neg h1.ne'
    have e2 : sensAt p a ms2 = sensR p (a / ms2) := if_neg h2.ne'
    rw [e1, e2]
    apply sensR_mono hp
    have hc1 : (0 : ℝ) < ms1 := by exact_mod_cast h1
    have hc2 : (ms1 : ℝ) ≤ ms2 := by exact_mod_cast h
    exact div_le_div_of_nonneg_left ha hc1 hc2

lemma elapsedMillis_of_le {t : ℕ} {s : AnxiousState} (h : s.prev_time ≤ t) :
    elapsedMillis t s = (t - s.prev_time) / 1000000 := by
  simp [elapsedMillis, durationSince, h]

lemma elapsedMillis_fallback {t : ℕ} {s : AnxiousState} (h : t < s.prev_time) :
    elapsedMillis t s = 1000 := by
  simp [elapsedMillis, durationSince, not_le.mpr h]

/-! ### Helper facts about the batch classifier -/

lemma process_events_length (events : List InputEvent) (p : AnxiousParams)
    (s : AnxiousState) : (process_events events p s).1.length ≤ events.length := by
  induction events generalizing s with
  | nil => simp [process_events]
  | cons e rest ih =>
    rw [process_events]
    split
    · simpa using Nat.succ_le_succ (ih _)
    · split
      · exact le_trans (ih _) (Nat.le_succ _)
      · simpa using Nat.succ_le_succ (ih _)

lemma process_events_sublist_keys (events : List InputEvent) (p : AnxiousParams)
    (s : AnxiousState) :
    List.Sublist ((process_events events p s).1.map fun e => (e.event_type, e.code))
      (events.map fun e => (e.event_type, e.code)) := by
  induction events generalizing s with
  | nil => simp [process_events]
  | cons e rest ih =>
    rw [process_events]
    split
    · simp only [List.map_cons, InputEvent.new]
      exact List.Sublist.cons₂ _ (ih _)
    · split
      · exact List.Sublist.trans (ih s) (List.sublist_cons_self _ _)
      · simp only [List.map_cons]
        exact List.Sublist.cons₂ _ (ih s)

lemma process_events_no_lo_res (events : List InputEvent) (p : AnxiousParams)
    (s : AnxiousState) :
    ((process_events events p s).1.countP
      (fun e => decide (e.event_type = RELATIVE ∧ e.code = REL_WHEEL))) = 0 := by
  induction events generalizing s with
  | nil => simp [process_events]
  | cons e rest ih =>
    rw [process_events]
    split
    · next hhi =>
      simp only [List.countP_cons, ih, InputEvent.new, hhi.2]
      norm_num [REL_WHEEL_HI_RES, REL_WHEEL]
    · split
      · exact ih s
      · next hhi hlo =>
        simp only [List.countP_cons, ih]
        simp [hlo]

/-! ### Further facts about the saturating cast and the sensitivity -/

lemma realToI32_lt {x : ℝ} {n : ℤ} (h0 : 0 ≤ x) (h : x < n) : realToI32 x < n := by
  have h1 : truncz x = ⌊x⌋ := truncz_nonneg h0
  have h2 : ⌊x⌋ < n := Int.floor_lt.mpr (by exact_mod_cast h)
  have h3 : (0 : ℤ) ≤ ⌊x⌋ := Int.floor_nonneg.mpr h0
  unfold realToI32
  rw [h1]
  rcases le_total ⌊x⌋ (2 ^ 31 - 1) with hle | hle
  · rw [min_eq_right hle, max_eq_right (by omega)]
    exact h2
  · rw [min_eq_left hle, max_eq_right (by norm_num)]
    omega

lemma one_le_realToI32 {x : ℝ} (h : 1 ≤ x) : 1 ≤ realToI32 x := by
  have h0 : 0 ≤ x := le_trans zero_le_one h
  have h1 : (1 : ℤ) ≤ ⌊x⌋ := Int.le_floor.mpr (by exact_mod_cast h)
  unfold realToI32
  rw [truncz_nonneg h0]
  rcases le_total ⌊x⌋ (2 ^ 31 - 1) with hle | hle
  · rw [min_eq_right hle]
    exact le_max_of_le_right h1
  · rw [min_eq_left hle]
    norm_num

lemma realToI32_le_neg_one {x : ℝ} (h : x ≤ -1) : realToI32 x ≤ -1 := by
  have h0 : ¬ (0 ≤ x) := by
    intro hc
    linarith
  have h1 : ⌈x⌉ ≤ (-1 : ℤ) := Int.ceil_le.mpr (by exact_mod_cast h)
  unfold realToI32
  rw [truncz, if_neg h0]
  exact max_le (by norm_num) (le_trans (min_le_right _ _) h1)

lemma realToI32_sat_upper {x : ℝ} (h : ((2 : ℝ) ^ 31 - 1) < x) :
    realToI32 x = 2 ^ 31 - 1 := by
  have h0 : 0 ≤ x := by
    have : (0 : ℝ) < 2 ^ 31 - 1 := by norm_num
    linarith
  have h1 : (2 ^ 31 - 1 : ℤ) ≤ ⌊x⌋ := Int.le_floor.mpr (by push_cast; linarith)
  unfold realToI32
  rw [truncz_nonneg h0, min_eq_left h1, max_eq_right (by norm_num)]

lemma realToI32_sat_lower {x : ℝ} (h : x < -((2 : ℝ) ^ 31)) :
    realToI32 x = -(2 ^ 31) := by
  have h0 : ¬ (0 ≤ x) := by
    intro hc
    have : (0 : ℝ) < 2 ^ 31 := by norm_num
    linarith
  have h1 : ⌈x⌉ ≤ (-(2 ^ 31) : ℤ) := Int.ceil_le.mpr (by push_cast; linarith)
  unfold realToI32
  rw [truncz, if_neg h0, min_eq_right (by omega), max_eq_left h1]

lemma sensR_lt_max {p : AnxiousParams} (hp : validParams p) (v : ℝ) :
    sensR p v < p.max_sens := by
  unfold sensR
  have hc := c_pos hp
  have he := Real.exp_pos (-1 * v * p.ramp_up_rate)
  exact div_lt_self (max_sens_pos hp) (by nlinarith)

lemma sensR_lt_of_exp_lb {p : AnxiousParams} (hp : validParams p) {v B m : ℝ}
    (hB : B ≤ Real.exp (-1 * v * p.ramp_up_rate))
    (h : p.max_sens < m * (1 + (p.max_sens / p.base_sens - 1) * B)) (hm : 0 < m) :
    sensR p v < m := by
  have hc := c_pos hp
  have hden := denom_pos hp (-1 * v * p.ramp_up_rate)
  rw [sensR, div_lt_iff₀ hden]
  have h2 : (p.max_sens / p.base_sens - 1) * B ≤
      (p.max_sens / p.base_sens - 1) * Real.exp (-1 * v * p.ramp_up_rate) :=
    mul_le_mul_of_nonneg_left hB hc.le
  have h3 := mul_le_mul_of_nonneg_left h2 hm.le
  nlinarith [h3]

/-! ### Claim theorems -/

/-- **C4**: after every call `transform(value, timestamp, params, state)`,
`state.prev_time` equals the timestamp argument, including on the
fallback path where the timestamp was not later than the previous
`prev_time`. -/
theorem c4_prev_time_unconditional (v : F32) (t : ℕ) (p : AnxiousParams)
    (s : AnxiousState) : ((apply_anxious_scroll v t p s).2).prev_time = t := rfl

/-- **C7**: for every valid parameter set `p`, every state `s` and every
timestamp `t`, `transform(0, t, p, s)` returns `0`. -/
theorem c7_zero_in_zero_out (t : ℕ) (p : AnxiousParams) (s : AnxiousState)
    (hp : validParams p) : (apply_anxious_scroll (F32.fin 0) t p s).1 = 0 :=
  scrollResult_zero_value hp _

/-- Witness for C7 at the default parameters, a concrete timestamp and a
concrete state. -/
theorem c7_zero_in_zero_out_witness :
    validParams defaultParams ∧
      (apply_anxious_scroll (F32.fin 0) 5 defaultParams ⟨3⟩).1 = 0 :=
  ⟨by norm_num [validParams, defaultParams],
    c7_zero_in_zero_out 5 defaultParams ⟨3⟩ (by norm_num [validParams, defaultParams])⟩

/-- **C5**: a batch containing only pass-through and low-resolution
(dropped) events — no high-resolution wheel events — leaves
`state.prev_time` unchanged. -/
theorem c5_state_isolation (events : List InputEvent) (p : AnxiousParams)
    (s : AnxiousState)
    (h : ∀ e ∈ events, ¬(e.event_type = RELATIVE ∧ e.code = REL_WHEEL_HI_RES)) :
    (process_events events p s).2 = s := by
  induction events generalizing s with
  | nil => rfl
  | cons e rest ih =>
    have he := h e (List.mem_cons_self e rest)
    rw [process_events, if_neg he]
    by_cases h2 : e.event_type = RELATIVE ∧ e.code = REL_WHEEL
    · rw [if_pos h2]
      exact ih s (fun x hx => h x (List.mem_cons_of_mem _ hx))
    · rw [if_neg h2]
      exact ih s (fun x hx => h x (List.mem_cons_of_mem _ hx))

/-- Witness for C5 on a concrete batch holding one pointer-motion event
and one low-resolution wheel event. -/
theorem c5_state_isolation_witness :
    (∀ e ∈ [(⟨2, 0, 10, 7⟩ : InputEvent), ⟨2, 8, 1, 9⟩],
      ¬(e.event_type = RELATIVE ∧ e.code = REL_WHEEL_HI_RES)) ∧
    (process_events [⟨2, 0, 10, 7⟩, ⟨2, 8, 1, 9⟩] defaultParams ⟨42⟩).2 = ⟨42⟩ :=
  ⟨by decide, c5_state_isolation _ defaultParams ⟨42⟩ (by decide)⟩

/-- **C3**: the batch classifier visits events in input order. The
first four conjuncts characterize the routing on every batch: the
empty batch yields the empty batch; a leading high-resolution wheel
event (arbitrary value and timestamp) is re-emitted with its value
replaced by `transform(value, event.timestamp, params, state)` and its
type and code kept, the rest being processed with the updated state; a
leading low-resolution wheel event is discarded with no other effect;
every other leading event is appended unchanged (value and timestamp
included). Together these equations determine the classifier on every
input batch. The remaining conjuncts state the derived claims: output
length at most input length, relative order of retained events
preserved (on the (type, code) projection), no surviving
low-resolution event, and the concrete batch
`[hi_res(120), lo_res(1), motion_x(10)]` mapping to exactly
`[transformed(120), motion_x(10)]`. -/
theorem c3_batch_classification :
    (∀ (p : AnxiousParams) (s : AnxiousState), process_events [] p s = ([], s)) ∧
    (∀ (e : InputEvent) (rest : List InputEvent) (p : AnxiousParams) (s : AnxiousState),
      e.event_type = RELATIVE → e.code = REL_WHEEL_HI_RES →
      process_events (e :: rest) p s =
        (InputEvent.new e.event_type e.code
            (apply_anxious_scroll (F32.fin (e.value : ℝ)) e.timestamp p s).1 ::
          (process_events rest p
            (apply_anxious_scroll (F32.fin (e.value : ℝ)) e.timestamp p s).2).1,
         (process_events rest p
           (apply_anxious_scroll (F32.fin (e.value : ℝ)) e.timestamp p s).2).2)) ∧
    (∀ (e : InputEvent) (rest : List InputEvent) (p : AnxiousParams) (s : AnxiousState),
      e.event_type = RELATIVE → e.code = REL_WHEEL →
      process_events (e :: rest) p s = process_events rest p s) ∧
    (∀ (e : InputEvent) (rest : List InputEvent) (p : AnxiousParams) (s : AnxiousState),
      ¬(e.event_type = RELATIVE ∧ (e.code = REL_WHEEL_HI_RES ∨ e.code = REL_WHEEL)) →
      process_events (e :: rest) p s =
        (e :: (process_events rest p s).1, (process_events rest p s).2)) ∧
    (∀ (events : List InputEvent) (p : AnxiousParams) (s : AnxiousState),
      (process_events events p s).1.length ≤ events.length) ∧
    (∀ (events : List InputEvent) (p : AnxiousParams) (s : AnxiousState),
      List.Sublist ((process_events events p s).1.map fun e => (e.event_type, e.code))
        (events.map fun e => (e.event_type, e.code))) ∧
    (∀ (events : List InputEvent) (p : AnxiousParams) (s : AnxiousState),
      ((process_events events p s).1.countP
        (fun e => decide (e.event_type = RELATIVE ∧ e.code = REL_WHEEL))) = 0) ∧
    (∀ (p : AnxiousParams) (s : AnxiousState) (t1 t2 t3 : ℕ),
      process_events
        [⟨RELATIVE, REL_WHEEL_HI_RES, 120, t1⟩, ⟨RELATIVE, REL_WHEEL, 1, t2⟩,
          ⟨RELATIVE, REL_X, 10, t3⟩] p s =
        ([⟨RELATIVE, REL_WHEEL_HI_RES, (apply_anxious_scroll (F32.fin 120) t1 p s).1, 0⟩,
          ⟨RELATIVE, REL_X, 10, t3⟩], ⟨t1⟩)) := by
  refine ⟨fun p s => rfl, ?_, ?_, ?_, process_events_length, process_events_sublist_keys,
    process_events_no_lo_res, ?_⟩
  · intro e rest p s h1 h2
    rw [process_events, if_pos ⟨h1, h2⟩]
  · intro e rest p s h1 h2
    have hne : ¬(e.event_type = RELATIVE ∧ e.code = REL_WHEEL_HI_RES) := by
      rintro ⟨-, hc⟩
      rw [h2] at hc
      norm_num [REL_WHEEL, REL_WHEEL_HI_RES] at hc
    rw [process_events, if_neg hne, if_pos ⟨h1, h2⟩]
  · intro e rest p s h
    have hne1 : ¬(e.event_type = RELATIVE ∧ e.code = REL_WHEEL_HI_RES) :=
      fun hc => h ⟨hc.1, Or.inl hc.2⟩
    have hne2 : ¬(e.event_type = RELATIVE ∧ e.code = REL_WHEEL) :=
      fun hc => h ⟨hc.1, Or.inr hc.2⟩
    rw [process_events, if_neg hne1, if_neg hne2]
  · intro p s t1 t2 t3
    have h120 : ((120 : ℤ) : ℝ) = (120 : ℝ) := by norm_num
    simp [process_events, RELATIVE, REL_WHEEL_HI_RES, REL_WHEEL, REL_X, InputEvent.new, h120]
    rfl

/-- Witness for C3: the high-resolution step equation exercised on a
concrete leading hi-res event followed by a concrete pointer-motion
event. -/
theorem c3_batch_classification_witness :
    process_events [⟨2, 11, 120, 7⟩, ⟨2, 0, 10, 9⟩] defaultParams ⟨0⟩ =
      (InputEvent.new 2 11
          (apply_anxious_scroll (F32.fin ((120 : ℤ) : ℝ)) 7 defaultParams ⟨0⟩).1 ::
        (process_events [⟨2, 0, 10, 9⟩] defaultParams
          (apply_anxious_scroll (F32.fin ((120 : ℤ) : ℝ)) 7 defaultParams ⟨0⟩).2).1,
       (process_events [⟨2, 0, 10, 9⟩] defaultParams
         (apply_anxious_scroll (F32.fin ((120 : ℤ) : ℝ)) 7 defaultParams ⟨0⟩).2).2) :=
  c3_batch_classification.2.1 ⟨2, 11, 120, 7⟩ [⟨2, 0, 10, 9⟩] defaultParams ⟨0⟩ rfl rfl

/-- **C1** (amended): when the timestamp is strictly earlier than
`state.prev_time`, the call does not fail and returns the same result
as a call whose elapsed time is exactly 1000 ms. (The original claim
said "not later than": on an exactly equal timestamp `duration_since`
returns `Ok(0)`, the fallback is not taken, and the elapsed time is
0 ms, see `c1_equal_timestamp_counterexample`.) -/
theorem c1_fallback_elapsed (v : F32) (p : AnxiousParams) (prev t u : ℕ)
    (h : t < prev) :
    (apply_anxious_scroll v t p ⟨prev⟩).1 =
      (apply_anxious_scroll v (u + 1000000000) p ⟨u⟩).1 := by
  have h1 : elapsedMillis t ⟨prev⟩ = 1000 := elapsedMillis_fallback h
  have h2 : elapsedMillis (u + 1000000000) ⟨u⟩ = 1000 := by
    have hle : (⟨u⟩ : AnxiousState).prev_time ≤ u + 1000000000 := by
      show u ≤ u + 1000000000
      omega
    rw [elapsedMillis_of_le hle]
    show (u + 1000000000 - u) / 1000000 = 1000
    omega
  simp only [apply_anxious_scroll, h1, h2]

/-- Witness for the amended C1 at the concrete scenario of the spec:
`prev_time = T + 100 ms`, call at `T + 50 ms` (with `T = 0`), compared
against a call whose elapsed time is exactly 1000 ms. -/
theorem c1_fallback_elapsed_witness :
    50000000 < 100000000 ∧
      (apply_anxious_scroll (F32.fin 120) 50000000 defaultParams ⟨100000000⟩).1 =
        (apply_anxious_scroll (F32.fin 120) (0 + 1000000000) defaultParams ⟨0⟩).1 :=
  ⟨by norm_num, c1_fallback_elapsed (F32.fin 120) defaultParams 100000000 50000000 0 (by norm_num)⟩

/-- **C1** (counterexample): with an exactly equal timestamp (which is
"not later than" `prev_time`), the fallback is not taken: the elapsed
time is 0 ms, the sensitivity saturates at `max_sens = 15`, and the call
returns `120 * 15 = 1800`, while the call with an elapsed time of
exactly 1000 ms returns a strictly smaller value. -/
theorem c1_equal_timestamp_counterexample :
    (apply_anxious_scroll (F32.fin 120) 100 defaultParams ⟨100⟩).1 ≠
      (apply_anxious_scroll (F32.fin 120) (100 + 1000000000) defaultParams ⟨100⟩).1 := by
  have hp : validParams defaultParams := by norm_num [validParams, defaultParams]
  have hms0 : elapsedMillis 100 ⟨100⟩ = 0 := by
    rw [elapsedMillis_of_le (le_refl _)]
    show (100 - 100) / 1000000 = 0
    omega
  have hms1 : elapsedMillis (100 + 1000000000) ⟨100⟩ = 1000 := by
    have hle : (⟨100⟩ : AnxiousState).prev_time ≤ 100 + 1000000000 := by
      show 100 ≤ 100 + 1000000000
      omega
    rw [elapsedMillis_of_le hle]
    show (100 + 1000000000 - 100) / 1000000 = 1000
    omega
  have hLHS : (apply_anxious_scroll (F32.fin 120) 100 defaultParams ⟨100⟩).1 = 1800 := by
    show scrollResult (F32.fin 120) (elapsedMillis 100 ⟨100⟩) defaultParams = 1800
    rw [hms0, scrollResult_fin_zero_ms hp (by norm_num)]
    have : (120 : ℝ) * defaultParams.max_sens = 1800 := by norm_num [defaultParams]
    rw [this, realToI32_of_mem (by norm_num) (by norm_num)]
    norm_num
  have hRHS : (apply_anxious_scroll (F32.fin 120) (100 + 1000000000) defaultParams ⟨100⟩).1 < 1800 := by
    show scrollResult (F32.fin 120) (elapsedMillis (100 + 1000000000) ⟨100⟩) defaultParams < 1800
    rw [hms1, scrollResult_fin_of_ms_ne_zero hp 120 (by norm_num)]
    have hs0 := sensR_pos hp (|(120 : ℝ)| / (1000 : ℕ))
    have hs1 := sensR_lt_max hp (|(120 : ℝ)| / (1000 : ℕ))
    have hmax : defaultParams.max_sens = 15 := rfl
    apply realToI32_lt (by positivity)
    push_cast
    nlinarith
  omega

/-- **C6** (counterexample): sign preservation fails as stated. With the
default parameters (which satisfy the invariant), the nonzero value
`1/2` at an elapsed time of 1000 ms gives a sensitivity barely above
`base_sens = 1`, the product stays below `1`, and truncation toward zero
returns `0` — whose sign is not the sign of the input. -/
theorem c6_fractional_value_counterexample :
    validParams defaultParams ∧ (0 : ℝ) < 1 / 2 ∧
      (apply_anxious_scroll (F32.fin (1 / 2)) 1000000000 defaultParams ⟨0⟩).1 = 0 := by
  have hp : validParams defaultParams := by norm_num [validParams, defaultParams]
  refine ⟨hp, by norm_num, ?_⟩
  have hms : elapsedMillis 1000000000 ⟨0⟩ = 1000 := by
    have hle : (⟨0⟩ : AnxiousState).prev_time ≤ 1000000000 := by
      show 0 ≤ 1000000000
      omega
    rw [elapsedMillis_of_le hle]
    show (1000000000 - 0) / 1000000 = 1000
    omega
  show scrollResult (F32.fin (1 / 2)) (elapsedMillis 1000000000 ⟨0⟩) defaultParams = 0
  rw [hms, scrollResult_fin_of_ms_ne_zero hp (1 / 2) (by norm_num)]
  have hv : |(1 : ℝ) / 2| / ((1000 : ℕ) : ℝ) = 1 / 2000 := by
    rw [abs_of_pos (by norm_num)]
    norm_num
  rw [hv]
  have hB : (0.99985 : ℝ) ≤ Real.exp (-1 * (1 / 2000) * defaultParams.ramp_up_rate) := by
    have harg : -1 * ((1 : ℝ) / 2000) * defaultParams.ramp_up_rate = -0.00015 := by
      norm_num [defaultParams]
    rw [harg]
    have h := Real.add_one_le_exp (-0.00015 : ℝ)
    linarith
  have hsens : sensR defaultParams (1 / 2000) < 2 := by
    apply sensR_lt_of_exp_lb hp hB ?_ (by norm_num)
    norm_num [defaultParams]
  have hsens0 : 0 < sensR defaultParams (1 / 2000) := sensR_pos hp _
  have h0 : (0 : ℝ) ≤ 1 / 2 * sensR defaultParams (1 / 2000) := by positivity
  have h1 : 1 / 2 * sensR defaultParams (1 / 2000) < 1 := by nlinarith
  rw [realToI32_of_mem h0 (by nlinarith)]
  exact Int.floor_eq_zero_iff.mpr ⟨h0, h1⟩

/-- **C6** (amended): for nonzero finite `value` and valid parameters,
the result never has the sign opposite to `value` (a positive value
gives a nonnegative result, a negative value a nonpositive one), and it
has exactly the sign of `value` whenever `|value| * base_sens ≥ 1`
(in particular for every integral wheel delta with the default
`base_sens = 1`). The original claim, which asserted equal signs
unconditionally, fails because truncation toward zero can collapse a
small product to `0`. -/
theorem c6_sign_behavior (v : ℝ) (t : ℕ) (p : AnxiousParams) (s : AnxiousState)
    (hp : validParams p) (hv : v ≠ 0) :
    (0 < v → 0 ≤ (apply_anxious_scroll (F32.fin v) t p s).1) ∧
    (v < 0 → (apply_anxious_scroll (F32.fin v) t p s).1 ≤ 0) ∧
    (1 ≤ |v| * p.base_sens →
      (0 < v → 0 < (apply_anxious_scroll (F32.fin v) t p s).1) ∧
      (v < 0 → (apply_anxious_scroll (F32.fin v) t p s).1 < 0)) := by
  have hres : (apply_anxious_scroll (F32.fin v) t p s).1 =
      realToI32 (v * sensAt p |v| (elapsedMillis t s)) :=
    scrollResult_eq_sensAt hp hv _
  set S := sensAt p |v| (elapsedMillis t s) with hSdef
  have hS : 0 < S := sensAt_pos hp _ _
  refine ⟨?_, ?_, ?_⟩
  · intro h0
    rw [hres]
    exact realToI32_nonneg (mul_nonneg h0.le hS.le)
  · intro h0
    rw [hres]
    exact realToI32_nonpos (mul_nonpos_of_nonpos_of_nonneg h0.le hS.le)
  · intro hmag
    have hbase : p.base_sens < S := sensAt_gt_base hp (abs_pos.mpr hv) _
    have habs : 0 < |v| := abs_pos.mpr hv
    have hgt1 : 1 ≤ |v| * S := by nlinarith
    constructor
    · intro h0
      rw [hres]
      have h1 : 1 ≤ v * S := by
        rw [abs_of_pos h0] at hgt1
        exact hgt1
      exact lt_of_lt_of_le Int.zero_lt_one (one_le_realToI32 h1)
    · intro h0
      rw [hres]
      have h1 : v * S ≤ -1 := by
        rw [abs_of_neg h0] at hgt1
        nlinarith
      calc realToI32 (v * S) ≤ -1 := realToI32_le_neg_one h1
        _ < 0 := by norm_num

/-- Witness for the amended C6 at the spec's concrete scenario: value
`120` with the default parameters yields a strictly positive result. -/
theorem c6_sign_behavior_witness :
    0 < (apply_anxious_scroll (F32.fin 120) 10000000 defaultParams ⟨0⟩).1 :=
  ((c6_sign_behavior 120 10000000 defaultParams ⟨0⟩
      (by norm_num [validParams, defaultParams]) (by norm_num)).2.2
    (by norm_num [defaultParams])).1 (by norm_num)

/-- **C8**: holding the value and the parameters fixed and starting from
the same `prev_time`, with the two timestamps both later than
`prev_time`, the call with the smaller elapsed time (higher implied
velocity) produces a result of magnitude at least that of the other
call. -/
theorem c8_velocity_monotonicity (v : F32) (p : AnxiousParams) (prev t1 t2 : ℕ)
    (hp : validParams p) (h1 : prev < t1) (h2 : prev < t2) (h12 : t1 ≤ t2) :
    |(apply_anxious_scroll v t2 p ⟨prev⟩).1| ≤ |(apply_anxious_scroll v t1 p ⟨prev⟩).1| := by
  have hm1 : elapsedMillis t1 ⟨prev⟩ = (t1 - prev) / 1000000 := elapsedMillis_of_le h1.le
  have hm2 : elapsedMillis t2 ⟨prev⟩ = (t2 - prev) / 1000000 := elapsedMillis_of_le h2.le
  have hle : elapsedMillis t1 ⟨prev⟩ ≤ elapsedMillis t2 ⟨prev⟩ := by
    rw [hm1, hm2]
    exact Nat.div_le_div_right (Nat.sub_le_sub_right h12 prev)
  show |scrollResult v (elapsedMillis t2 ⟨prev⟩) p| ≤
    |scrollResult v (elapsedMillis t1 ⟨prev⟩) p|
  cases v with
  | nan =>
    rw [scrollResult_nan, scrollResult_nan]
  | inf b =>
    rw [scrollResult_inf hp, scrollResult_inf hp]
  | fin x =>
    by_cases hx : x = 0
    · subst hx
      rw [scrollResult_zero_value hp, scrollResult_zero_value hp]
    · rw [scrollResult_eq_sensAt hp hx, scrollResult_eq_sensAt hp hx]
      set S1 := sensAt p |x| (elapsedMillis t1 ⟨prev⟩) with hS1def
      set S2 := sensAt p |x| (elapsedMillis t2 ⟨prev⟩) with hS2def
      have hSle : S2 ≤ S1 := sensAt_anti hp (abs_nonneg x) hle
      have hS2 : 0 < S2 := sensAt_pos hp _ _
      have hS1 : 0 < S1 := sensAt_pos hp _ _
      rcases lt_trichotomy x 0 with hneg | hzero | hpos
      · have hord : x * S1 ≤ x * S2 := by nlinarith
        have hr1 : realToI32 (x * S1) ≤ realToI32 (x * S2) := realToI32_mono hord
        have hr2 : realToI32 (x * S2) ≤ 0 :=
          realToI32_nonpos (mul_nonpos_of_nonpos_of_nonneg hneg.le hS2.le)
        have hr1' : realToI32 (x * S1) ≤ 0 := le_trans hr1 hr2
        rw [abs_of_nonpos hr2, abs_of_nonpos hr1']
        omega
      · exact absurd hzero hx
      · have hord : x * S2 ≤ x * S1 := by nlinarith
        have hr1 : realToI32 (x * S2) ≤ realToI32 (x * S1) := realToI32_mono hord
        have hr2 : 0 ≤ realToI32 (x * S2) :=
          realToI32_nonneg (mul_nonneg hpos.le hS2.le)
        have hr1' : 0 ≤ realToI32 (x * S1) := le_trans hr2 hr1
        rw [abs_of_nonneg hr2, abs_of_nonneg hr1']
        exact hr1

/-- Witness for C8: value `120`, default parameters, `prev_time = 0`,
comparing elapsed times of 10 ms and 20 ms. -/
theorem c8_velocity_monotonicity_witness :
    |(apply_anxious_scroll (F32.fin 120) 20000000 defaultParams ⟨0⟩).1| ≤
      |(apply_anxious_scroll (F32.fin 120) 10000000 defaultParams ⟨0⟩).1| :=
  c8_velocity_monotonicity (F32.fin 120) defaultParams 0 10000000 20000000
    (by norm_num [validParams, defaultParams]) (by norm_num) (by norm_num) (by norm_num)

/-- **C2**: the claim's totality holds for the lib.rs transform — for
every finite value the result is a finite-magnitude 32-bit integer, and
on a degenerate elapsed time (zero after rounding) the sensitivity
saturates at exactly `max_sens` without trapping — but the duplicated
transform in main.rs (lines 133-142) unwraps `duration_since` and
panics on the very input the spec requires to succeed: this theorem
evaluates that copy at `prev_time = T + 100 ms`, `timestamp = T + 50 ms`
(with `T = 0`) and shows the panic (modelled as `none`). -/
theorem c2_totality_and_main_copy_panic :
    mainApplyAnxiousScroll (F32.fin 120) 50000000 defaultParams ⟨100000000⟩ = none ∧
    (∀ (x : ℝ) (t : ℕ) (p : AnxiousParams) (s : AnxiousState),
      -(2 ^ 31) ≤ (apply_anxious_scroll (F32.fin x) t p s).1 ∧
      (apply_anxious_scroll (F32.fin x) t p s).1 ≤ 2 ^ 31 - 1) ∧
    (∀ (x : ℝ) (t : ℕ) (p : AnxiousParams) (s : AnxiousState),
      validParams p → x ≠ 0 → elapsedMillis t s = 0 →
      scrollSens p (scrollVel (F32.fin x) (elapsedMillis t s)) = F32.fin p.max_sens) := by
  refine ⟨rfl, ?_, ?_⟩
  · intro x t p s
    exact ⟨as_i32_lower _, as_i32_upper _⟩
  · intro x t p s hp hx hms
    rw [hms, scrollVel_fin_zero_ms hx, scrollSens_inf_true hp.2.2]

/-- Witness for C2: a concrete instance of the bounds, and of the
saturation at `max_sens` when the elapsed time rounds to 0 ms. -/
theorem c2_totality_witness :
    (-(2 ^ 31) ≤ (apply_anxious_scroll (F32.fin 120) 0 defaultParams ⟨0⟩).1) ∧
    scrollSens defaultParams (scrollVel (F32.fin 120) (elapsedMillis 0 ⟨0⟩)) =
      F32.fin defaultParams.max_sens :=
  ⟨((c2_totality_and_main_copy_panic.2.1) 120 0 defaultParams ⟨0⟩).1,
    (c2_totality_and_main_copy_panic.2.2) 120 0 defaultParams ⟨0⟩
      (by norm_num [validParams, defaultParams]) (by norm_num) rfl⟩

/-- **C10**: the conversion of the product `value * sens` to `i32`
(lib.rs line 77, Rust saturating `as` cast) never wraps: NaN yields 0,
a product above `i32::MAX` (or +∞) yields `i32::MAX`, a product below
`i32::MIN` (or -∞) yields `i32::MIN`, and every result lies in the
`i32` range. -/
theorem c10_saturating_cast (v : F32) (t : ℕ) (p : AnxiousParams) (s : AnxiousState) :
    (scrollProduct v (elapsedMillis t s) p = F32.nan →
      (apply_anxious_scroll v t p s).1 = 0) ∧
    (scrollProduct v (elapsedMillis t s) p = F32.inf true →
      (apply_anxious_scroll v t p s).1 = 2 ^ 31 - 1) ∧
    (scrollProduct v (elapsedMillis t s) p = F32.inf false →
      (apply_anxious_scroll v t p s).1 = -(2 ^ 31)) ∧
    (∀ x : ℝ, scrollProduct v (elapsedMillis t s) p = F32.fin x →
      (((2 : ℝ) ^ 31 - 1) < x → (apply_anxious_scroll v t p s).1 = 2 ^ 31 - 1) ∧
      (x < -((2 : ℝ) ^ 31) → (apply_anxious_scroll v t p s).1 = -(2 ^ 31))) ∧
    (-(2 ^ 31) ≤ (apply_anxious_scroll v t p s).1 ∧
      (apply_anxious_scroll v t p s).1 ≤ 2 ^ 31 - 1) := by
  have hres : (apply_anxious_scroll v t p s).1 =
      (scrollProduct v (elapsedMillis t s) p).as_i32 := rfl
  refine ⟨?_, ?_, ?_, ?_, ?_⟩
  · intro h
    rw [hres, h]
    rfl
  · intro h
    rw [hres, h]
    rfl
  · intro h
    rw [hres, h]
    rfl
  · intro x h
    constructor
    · intro hgt
      rw [hres, h, F32.as_i32_fin]
      exact realToI32_sat_upper hgt
    · intro hlt
      rw [hres, h, F32.as_i32_fin]
      exact realToI32_sat_lower hlt
  · rw [hres]
    exact ⟨as_i32_lower _, as_i32_upper _⟩

/-- Witness for C10 at a NaN product (a NaN input value propagates to
the product, and the cast yields 0). -/
theorem c10_saturating_cast_witness :
    scrollProduct F32.nan (elapsedMillis 5 ⟨0⟩) defaultParams = F32.nan ∧
      (apply_anxious_scroll F32.nan 5 defaultParams ⟨0⟩).1 = 0 :=
  ⟨rfl, (c10_saturating_cast F32.nan 5 defaultParams ⟨0⟩).1 rfl⟩

/-! ### Numeric bounds for the spec's concrete scenario (C9)

The scenario needs two-sided bounds on `exp (-3.6)`, obtained from the
degree-8 Taylor expansion of `exp` at `0.9` and `exp 3.6 = (exp 0.9)^4`. -/

lemma exp09_lb : (2.45959 : ℝ) ≤ Real.exp 0.9 := by
  have h := Real.sum_le_exp_of_nonneg (x := 0.9) (by norm_num) 8
  refine le_trans ?_ h
  simp only [Finset.sum_range_succ, Finset.sum_range_zero]
  norm_num [Nat.factorial]

lemma exp09_ub : Real.exp 0.9 ≤ 2.459604 := by
  have h := Real.exp_bound (x := 0.9)
    (by rw [abs_of_nonneg (by norm_num : (0 : ℝ) ≤ 0.9)]; norm_num) (n := 8) (by norm_num)
  have h2 := (abs_le.mp h).2
  have hsum : (∑ m ∈ Finset.range 8, (0.9 : ℝ) ^ m / m.factorial) +
      |(0.9 : ℝ)| ^ 8 * (9 / ((8 : ℕ).factorial * 8)) ≤ 2.459604 := by
    simp only [Finset.sum_range_succ, Finset.sum_range_zero]
    rw [abs_of_pos (by norm_num : (0 : ℝ) < 0.9)]
    norm_num [Nat.factorial]
  have h3 : ((8 : ℕ).succ : ℝ) = 9 := by norm_num
  calc Real.exp 0.9
      ≤ (∑ m ∈ Finset.range 8, (0.9 : ℝ) ^ m / m.factorial) +
        |(0.9 : ℝ)| ^ 8 * (((8 : ℕ).succ : ℝ) / ((8 : ℕ).factorial * 8)) := by linarith
    _ ≤ 2.459604 := by rw [h3]; exact hsum

lemma exp36_bounds : (36.51 : ℝ) ≤ Real.exp 3.6 ∧ Real.exp 3.6 ≤ 36.60 := by
  have h4 : Real.exp 3.6 = Real.exp 0.9 ^ 4 := by
    have harg : ((4 : ℕ) : ℝ) * (0.9 : ℝ) = 3.6 := by norm_num
    rw [← harg, Real.exp_nat_mul]
  constructor
  · rw [h4]
    calc (36.51 : ℝ) ≤ 2.45959 ^ 4 := by norm_num
      _ ≤ Real.exp 0.9 ^ 4 := pow_le_pow_left₀ (by norm_num) exp09_lb 4
  · rw [h4]
    calc Real.exp 0.9 ^ 4 ≤ 2.459604 ^ 4 :=
        pow_le_pow_left₀ (Real.exp_nonneg _) exp09_ub 4
      _ ≤ 36.60 := by norm_num

lemma expneg36_bounds :
    (1 / 36.60 : ℝ) ≤ Real.exp (-(3.6 : ℝ)) ∧ Real.exp (-(3.6 : ℝ)) ≤ 1 / 36.51 := by
  rw [Real.exp_neg, inv_eq_one_div]
  have hp := Real.exp_pos (3.6 : ℝ)
  obtain ⟨h1, h2⟩ := exp36_bounds
  exact ⟨one_div_le_one_div_of_le hp h2, one_div_le_one_div_of_le (by norm_num) h1⟩

lemma sensR_dp12_eq :
    sensR defaultParams 12 = 15 / (1 + 14 * Real.exp (-(3.6 : ℝ))) := by
  have harg : -1 * (12 : ℝ) * defaultParams.ramp_up_rate = -(3.6 : ℝ) := by
    norm_num [defaultParams]
  rw [sensR, harg]
  norm_num [defaultParams]

lemma c9_product_bounds :
    (1301 : ℝ) ≤ 120 * sensR defaultParams 12 ∧
      120 * sensR defaultParams 12 < 1302 := by
  rw [sensR_dp12_eq]
  obtain ⟨h1, h2⟩ := expneg36_bounds
  have hE0 := Real.exp_pos (-(3.6 : ℝ))
  have hden : (0 : ℝ) < 1 + 14 * Real.exp (-(3.6 : ℝ)) := by nlinarith
  have heq : (120 : ℝ) * (15 / (1 + 14 * Real.exp (-(3.6 : ℝ)))) =
      1800 / (1 + 14 * Real.exp (-(3.6 : ℝ))) := by ring
  rw [heq]
  constructor
  · rw [le_div_iff₀ hden]
    nlinarith
  · rw [div_lt_iff₀ hden]
    nlinarith

lemma c9_result_eval :
    (apply_anxious_scroll (F32.fin 120) 10000000 defaultParams ⟨0⟩).1 = 1301 := by
  have hp : validParams defaultParams := by norm_num [validParams, defaultParams]
  have hms : elapsedMillis 10000000 ⟨0⟩ = 10 := by
    have hle : (⟨0⟩ : AnxiousState).prev_time ≤ 10000000 := by
      show 0 ≤ 10000000
      omega
    rw [elapsedMillis_of_le hle]
    show (10000000 - 0) / 1000000 = 10
    omega
  show scrollResult (F32.fin 120) (elapsedMillis 10000000 ⟨0⟩) defaultParams = 1301
  rw [hms, scrollResult_fin_of_ms_ne_zero hp 120 (by norm_num)]
  have habs : |(120 : ℝ)| / ((10 : ℕ) : ℝ) = 12 := by norm_num
  rw [habs]
  obtain ⟨hb1, hb2⟩ := c9_product_bounds
  rw [realToI32_of_mem (by linarith) (by norm_num; linarith)]
  apply Int.floor_eq_iff.mpr
  constructor
  · exact_mod_cast hb1
  · push_cast
    linarith

/-- **C9** (counterexample): at `base_sens = 1`, `max_sens = 15`,
`ramp_up_rate = 0.3`, `value = 120` and an elapsed time of 10 ms, the
transform does not return 1302. -/
theorem c9_expected_output_counterexample :
    (apply_anxious_scroll (F32.fin 120) 10000000 defaultParams ⟨0⟩).1 ≠ 1302 := by
  rw [c9_result_eval]
  norm_num

/-- **C9** (amended): in the spec's numeric scenario (default
parameters, `value = 120`, elapsed 10 ms) the transform computes
`velocity = 12` and `C = 14`, the sensitivity is `≈ 10.85` (within
`0.01`; its exact value is `15 / (1 + 14 e^{-3.6}) ≈ 10.8498`), and the
result is `1301` — the truncation toward zero of
`120 × 10.8498 ≈ 1301.97` — not `1302` as the spec rounded it. -/
theorem c9_numeric_scenario :
    elapsedMillis 10000000 ⟨0⟩ = 10 ∧
    scrollVel (F32.fin 120) 10 = F32.fin 12 ∧
    defaultParams.max_sens / defaultParams.base_sens - 1 = 14 ∧
    |sensR defaultParams 12 - 10.85| < 0.01 ∧
    (apply_anxious_scroll (F32.fin 120) 10000000 defaultParams ⟨0⟩).1 = 1301 := by
  refine ⟨?_, ?_, ?_, ?_, c9_result_eval⟩
  · have hle : (⟨0⟩ : AnxiousState).prev_time ≤ 10000000 := by
      show 0 ≤ 10000000
      omega
    rw [elapsedMillis_of_le hle]
    show (10000000 - 0) / 1000000 = 10
    omega
  · rw [scrollVel_fin_of_ms_ne_zero _ (by norm_num)]
    have habs : |(120 : ℝ)| / ((10 : ℕ) : ℝ) = 12 := by norm_num
    rw [habs]
  · norm_num [defaultParams]
  · obtain ⟨hb1, hb2⟩ := c9_product_bounds
    rw [abs_lt]
    constructor <;> nlinarith

end CursorAnxious
